import Mathlib

/-!
QCoapConnection: queued delivery of frames over a transport that binds asynchronously.

A shallow embedding of `src/coap/qcoapconnection.cpp`.

* The private data of a connection (`QCoapConnectionPrivate`) is a record.
* The two pure virtual methods `bind` and `writeData`, the signal
  `securityConfigurationChanged` and the `qCWarning` diagnostic are calls that leave the
  class. They are recorded, in program order, in a call log; every entry also holds the
  private data as it stands when the call is made, which is what the callee would read
  through the public getters.
* `q->connect(q, &QCoapConnection::bound, q, [this, q]() ...)` adds one receiver of the
  `bound` signal. All receivers added by this file run the same lambda, so the
  connection list is represented by the number of its entries. Nothing in the file
  disconnects a receiver.
* `Q_ASSERT` stops the run when its condition is false: an `Outcome` is either
  `returned` or `asserted`, the latter holding the connection at the failed assertion.
  `startToSendRequestNoDebug` is the same method compiled with `QT_NO_DEBUG`, where
  `Q_ASSERT` expands to nothing.
-/

namespace QtCoap

/-- Modelled from the spec: the enum `QtCoap::SecurityMode` is declared in a header that
is not part of the sources. The spec describes it as `NoSecurity` plus one or several
secure variants; the code only ever compares a mode with `QtCoap::NoSec`. -/
inductive SecurityMode where
  | NoSec
  | Secure (variant : Nat)
  deriving DecidableEq, Repr

end QtCoap

open QtCoap

/-- The enum `QCoapConnection::ConnectionState`. -/
inductive ConnectionState where
  | Unconnected
  | Bound
  deriving DecidableEq, Repr

/-- The struct `CoapFrame`: built as `CoapFrame frame(request, host, port)` and read as
`frame.currentPdu`, `frame.host`, `frame.port`. A `QByteArray` is a list of bytes and a
`quint16` a number below `2^16`. -/
structure CoapFrame where
  currentPdu : List (Fin 256)
  host : String
  port : Fin 65536
  deriving DecidableEq, Repr

/-- The members of `QCoapConnectionPrivate` used by the file. `Cfg` stands for the class
`QCoapSecurityConfiguration`, which the connection stores and never inspects. -/
structure QCoapConnectionPrivate (Cfg : Type) where
  securityMode : SecurityMode
  state : ConnectionState
  framesToSend : List CoapFrame
  securityConfiguration : Cfg
  deriving DecidableEq, Repr

/-- A call that leaves the class: the pure virtual methods `bind` and `writeData`, the
emission of the signal `securityConfigurationChanged`, and the `qCWarning` diagnostic. -/
inductive Call where
  | bind (host : String) (port : Fin 65536)
  | writeData (data : List (Fin 256)) (host : String) (port : Fin 65536)
  | securityConfigurationChanged
  | qCWarning
  deriving DecidableEq, Repr

/-- One entry of the call log: the call, and the private data at the time of the call. -/
structure Observed (Cfg : Type) where
  call : Call
  seen : QCoapConnectionPrivate Cfg
  deriving DecidableEq, Repr

/-- A connection object: its private data `d`, the number of receivers that
`sendRequest` has connected to the signal `bound`, and the log of outgoing calls. -/
structure QCoapConnection (Cfg : Type) where
  d : QCoapConnectionPrivate Cfg
  boundSlots : Nat
  calls : List (Observed Cfg)
  deriving DecidableEq, Repr

/-- Result of running code that contains a `Q_ASSERT`. -/
inductive Outcome (Cfg : Type) where
  | returned (q : QCoapConnection Cfg)
  | asserted (q : QCoapConnection Cfg)
  deriving DecidableEq, Repr

namespace Outcome

variable {Cfg : Type}

/-- Sequencing: code after a failed assertion does not run. -/
def andThen (o : Outcome Cfg) (k : QCoapConnection Cfg → Outcome Cfg) : Outcome Cfg :=
  match o with
  | returned q => k q
  | asserted q => asserted q

/-- The connection an outcome ends with. -/
def conn : Outcome Cfg → QCoapConnection Cfg
  | returned q => q
  | asserted q => q

end Outcome

namespace QCoapConnectionPrivate

variable {Cfg : Type}

/-- The constructor `QCoapConnectionPrivate::QCoapConnectionPrivate(security)`: it
initialises `securityMode` and `state`; the queue and the configuration are default
constructed. -/
def new [Inhabited Cfg] (security : SecurityMode) : QCoapConnectionPrivate Cfg :=
  { securityMode := security
    state := ConnectionState.Unconnected
    framesToSend := []
    securityConfiguration := default }

end QCoapConnectionPrivate

namespace QCoapConnection

variable {Cfg : Type}

/-- The constructor `QCoapConnection::QCoapConnection(securityMode, parent)`: fresh private
data, no receiver connected, nothing called yet. -/
def new [Inhabited Cfg] (securityMode : SecurityMode) : QCoapConnection Cfg :=
  { d := QCoapConnectionPrivate.new securityMode
    boundSlots := 0
    calls := [] }

/-- Append an outgoing call to the log, together with the private data of that moment. -/
def record (q : QCoapConnection Cfg) (c : Call) : QCoapConnection Cfg :=
  { q with calls := q.calls ++ [{ call := c, seen := q.d }] }

/-- The method `QCoapConnection::isSecure`. -/
def isSecure (q : QCoapConnection Cfg) : Bool :=
  q.d.securityMode != SecurityMode.NoSec

/-- The method `QCoapConnection::securityMode`. -/
def securityMode (q : QCoapConnection Cfg) : SecurityMode :=
  q.d.securityMode

/-- The method `QCoapConnection::state`. -/
def state (q : QCoapConnection Cfg) : ConnectionState :=
  q.d.state

/-- The method `QCoapConnection::securityConfiguration`. -/
def securityConfiguration (q : QCoapConnection Cfg) : Cfg :=
  q.d.securityConfiguration

/-- The method `QCoapConnection::startToSendRequest`: assert that the queue is not empty,
dequeue its head, hand the head's fields to `writeData`. -/
def startToSendRequest (q : QCoapConnection Cfg) : Outcome Cfg :=
  match q.d.framesToSend with
  | [] => Outcome.asserted q
  | frame :: rest =>
    let q1 : QCoapConnection Cfg := { q with d := { q.d with framesToSend := rest } }
    Outcome.returned (q1.record (Call.writeData frame.currentPdu frame.host frame.port))

/-- The lambda that `sendRequest` connects to the signal `bound`:
`state = Bound; q->startToSendRequest();`. -/
def boundSlot (q : QCoapConnection Cfg) : Outcome Cfg :=
  startToSendRequest { q with d := { q.d with state := ConnectionState.Bound } }

/-- The method `QCoapConnectionPrivate::sendRequest`: enqueue the frame; when
`Unconnected`, connect the lambda to `bound` and call `bind(host, port)`; otherwise call
`startToSendRequest`. -/
def sendRequest (q : QCoapConnection Cfg) (request : List (Fin 256)) (host : String)
    (port : Fin 65536) : Outcome Cfg :=
  let frame : CoapFrame := { currentPdu := request, host := host, port := port }
  let q1 : QCoapConnection Cfg :=
    { q with d := { q.d with framesToSend := q.d.framesToSend ++ [frame] } }
  if q1.d.state = ConnectionState.Unconnected then
    let q2 : QCoapConnection Cfg := { q1 with boundSlots := q1.boundSlots + 1 }
    Outcome.returned (q2.record (Call.bind host port))
  else
    q1.startToSendRequest

/-- Run the connected lambda `n` times in a row. -/
def runSlots : Nat → QCoapConnection Cfg → Outcome Cfg
  | 0, q => Outcome.returned q
  | n + 1, q => (boundSlot q).andThen (runSlots n)

/-- The transport emits `bound()`: every receiver connected so far is run once, in the
order of connection. -/
def emitBound (q : QCoapConnection Cfg) : Outcome Cfg :=
  runSlots q.boundSlots q

/-- The method `QCoapConnection::setSecurityConfiguration`. -/
def setSecurityConfiguration (q : QCoapConnection Cfg) (configuration : Cfg) :
    QCoapConnection Cfg :=
  if q.isSecure then
    let q1 : QCoapConnection Cfg :=
      { q with d := { q.d with securityConfiguration := configuration } }
    q1.record Call.securityConfigurationChanged
  else
    q.record Call.qCWarning

end QCoapConnection

/-- What can happen to a connection from outside: a `send`, a `bound` notification from
the transport, a call of `setSecurityConfiguration`. -/
inductive Op (Cfg : Type) where
  | send (request : List (Fin 256)) (host : String) (port : Fin 65536)
  | bound
  | setSecurityConfiguration (configuration : Cfg)
  deriving DecidableEq, Repr

namespace QCoapConnection

variable {Cfg : Type}

/-- One operation on a connection. -/
def step (q : QCoapConnection Cfg) : Op Cfg → Outcome Cfg
  | Op.send request host port => q.sendRequest request host port
  | Op.bound => q.emitBound
  | Op.setSecurityConfiguration c => Outcome.returned (q.setSecurityConfiguration c)

/-- A run: operations one after the other, stopping at a failed assertion. -/
def run : QCoapConnection Cfg → List (Op Cfg) → Outcome Cfg
  | q, [] => Outcome.returned q
  | q, op :: ops => (q.step op).andThen (fun q1 => run q1 ops)

end QCoapConnection

/-- The frame a logged call hands to `writeData`, if it is a `writeData` call. -/
def Call.written : Call → Option CoapFrame
  | Call.writeData data host port => some { currentPdu := data, host := host, port := port }
  | _ => none

/-- The `(host, port)` a logged call hands to `bind`, if it is a `bind` call. -/
def Call.bindTarget : Call → Option (String × Fin 65536)
  | Call.bind host port => some (host, port)
  | _ => none

/-- The triples handed to `writeData`, in call order. -/
def transmitted {Cfg : Type} (log : List (Observed Cfg)) : List CoapFrame :=
  log.filterMap (fun o => o.call.written)

/-- The `(host, port)` pairs handed to `bind`, in call order. -/
def bindCalls {Cfg : Type} (log : List (Observed Cfg)) : List (String × Fin 65536) :=
  log.filterMap (fun o => o.call.bindTarget)

/-- The number of `securityConfigurationChanged` emissions in a log. -/
def changedCount {Cfg : Type} (log : List (Observed Cfg)) : Nat :=
  (log.filter (fun o => decide (o.call = Call.securityConfigurationChanged))).length

/-- The frame an operation submits, if it is a `send`. -/
def Op.submits {Cfg : Type} : Op Cfg → Option CoapFrame
  | Op.send request host port => some { currentPdu := request, host := host, port := port }
  | _ => none

/-- The triples submitted through `send` by a list of operations, in submission order. -/
def submitted {Cfg : Type} (ops : List (Op Cfg)) : List CoapFrame :=
  ops.filterMap Op.submits

section Helpers

variable {Cfg : Type}

open QCoapConnection

theorem transmitted_append (a b : List (Observed Cfg)) :
    transmitted (a ++ b) = transmitted a ++ transmitted b := by
  simp [transmitted, List.filterMap_append]

theorem startToSendRequest_cons (q : QCoapConnection Cfg) (frame : CoapFrame)
    (rest : List CoapFrame) (h : q.d.framesToSend = frame :: rest) :
    q.startToSendRequest =
      Outcome.returned
        { q with
          d := { q.d with framesToSend := rest }
          calls := q.calls ++
            [{ call := Call.writeData frame.currentPdu frame.host frame.port
               seen := { q.d with framesToSend := rest } }] } := by
  unfold startToSendRequest
  rw [h]
  rfl

theorem startToSendRequest_nil (q : QCoapConnection Cfg) (h : q.d.framesToSend = []) :
    q.startToSendRequest = Outcome.asserted q := by
  unfold startToSendRequest
  rw [h]

/-- `startToSendRequest` moves the head of the queue to the end of the transmitted list. -/
theorem fifo_startToSendRequest (q q1 : QCoapConnection Cfg)
    (h : q.startToSendRequest = Outcome.returned q1) :
    transmitted q1.calls ++ q1.d.framesToSend = transmitted q.calls ++ q.d.framesToSend := by
  cases hq : q.d.framesToSend with
  | nil => rw [startToSendRequest_nil q hq] at h; cases h
  | cons frame rest =>
    rw [startToSendRequest_cons q frame rest hq] at h
    cases h
    simp [transmitted_append, transmitted, Call.written]

theorem fifo_boundSlot (q q1 : QCoapConnection Cfg)
    (h : q.boundSlot = Outcome.returned q1) :
    transmitted q1.calls ++ q1.d.framesToSend = transmitted q.calls ++ q.d.framesToSend := by
  have := fifo_startToSendRequest _ q1 h
  simpa using this

theorem andThen_returned (o : Outcome Cfg) (k : QCoapConnection Cfg → Outcome Cfg)
    (q1 : QCoapConnection Cfg) (h : o.andThen k = Outcome.returned q1) :
    ∃ q0, o = Outcome.returned q0 ∧ k q0 = Outcome.returned q1 := by
  cases o with
  | returned q0 => exact ⟨q0, rfl, h⟩
  | asserted q0 => cases h

theorem fifo_runSlots (n : Nat) (q q1 : QCoapConnection Cfg)
    (h : runSlots n q = Outcome.returned q1) :
    transmitted q1.calls ++ q1.d.framesToSend = transmitted q.calls ++ q.d.framesToSend := by
  induction n generalizing q with
  | zero => cases h; rfl
  | succ n ih =>
    obtain ⟨q0, h0, h1⟩ := andThen_returned _ _ _ h
    rw [ih q0 h1, fifo_boundSlot q q0 h0]

theorem fifo_sendRequest (q q1 : QCoapConnection Cfg) (request : List (Fin 256))
    (host : String) (port : Fin 65536)
    (h : q.sendRequest request host port = Outcome.returned q1) :
    transmitted q1.calls ++ q1.d.framesToSend =
      transmitted q.calls ++ q.d.framesToSend ++
        [{ currentPdu := request, host := host, port := port }] := by
  unfold sendRequest at h
  simp only at h
  split at h
  · cases h
    simp [record, transmitted_append, transmitted, Call.written]
  · have := fifo_startToSendRequest _ q1 h
    simpa [List.append_assoc] using this

theorem fifo_setSecurityConfiguration (q : QCoapConnection Cfg) (c : Cfg) :
    transmitted (q.setSecurityConfiguration c).calls ++
        (q.setSecurityConfiguration c).d.framesToSend =
      transmitted q.calls ++ q.d.framesToSend := by
  unfold setSecurityConfiguration
  split <;> simp [record, transmitted_append, transmitted, Call.written]

theorem fifo_step (q q1 : QCoapConnection Cfg) (op : Op Cfg)
    (h : q.step op = Outcome.returned q1) :
    transmitted q1.calls ++ q1.d.framesToSend =
      transmitted q.calls ++ q.d.framesToSend ++ submitted [op] := by
  cases op with
  | send request host port =>
    simpa [submitted, Op.submits] using fifo_sendRequest q q1 request host port h
  | bound =>
    simpa [submitted, Op.submits] using fifo_runSlots _ q q1 h
  | setSecurityConfiguration c =>
    simp only [step] at h
    cases h
    simpa [submitted, Op.submits] using fifo_setSecurityConfiguration q c

theorem fifo_run (ops : List (Op Cfg)) (q q1 : QCoapConnection Cfg)
    (h : q.run ops = Outcome.returned q1) :
    transmitted q1.calls ++ q1.d.framesToSend =
      transmitted q.calls ++ q.d.framesToSend ++ submitted ops := by
  induction ops generalizing q with
  | nil => cases h; simp [submitted]
  | cons op ops ih =>
    obtain ⟨q0, h0, h1⟩ := andThen_returned _ _ _ h
    rw [ih q0 h1, fifo_step q q0 op h0]
    have hs : submitted (op :: ops) = submitted [op] ++ submitted ops := by
      unfold submitted
      rw [← List.filterMap_append]
      rfl
    rw [hs, List.append_assoc]

end Helpers

section Draining

variable {Cfg : Type}

open QCoapConnection

/-- The `writeData` call that hands over a frame. -/
theorem boundSlot_cons (q : QCoapConnection Cfg) (frame : CoapFrame) (rest : List CoapFrame)
    (h : q.d.framesToSend = frame :: rest) :
    q.boundSlot =
      Outcome.returned
        { q with
          d := { q.d with state := ConnectionState.Bound, framesToSend := rest }
          calls := q.calls ++
            [{ call := Call.writeData frame.currentPdu frame.host frame.port
               seen := { q.d with state := ConnectionState.Bound, framesToSend := rest } }] } := by
  unfold boundSlot
  rw [startToSendRequest_cons _ frame rest (by simpa using h)]

/-- Running `n` receivers on a queue of at least `n` frames: all of them return, the
calls made are `writeData` for the first `n` queued frames in order, each made with the
state already `Bound`, and the queue loses its first `n` frames. -/
theorem runSlots_spec (n : Nat) (q : QCoapConnection Cfg)
    (h : n ≤ q.d.framesToSend.length) :
    ∃ q1 added, runSlots n q = Outcome.returned q1 ∧
      q1.calls = q.calls ++ added ∧
      added.map (fun o => o.call) =
        (q.d.framesToSend.take n).map
          (fun f => Call.writeData f.currentPdu f.host f.port) ∧
      (∀ o ∈ added, o.seen.state = ConnectionState.Bound) ∧
      q1.d.framesToSend = q.d.framesToSend.drop n ∧
      q1.d.state = (if n = 0 then q.d.state else ConnectionState.Bound) ∧
      q1.boundSlots = q.boundSlots ∧
      q1.d.securityMode = q.d.securityMode ∧
      q1.d.securityConfiguration = q.d.securityConfiguration := by
  induction n generalizing q with
  | zero => exact ⟨q, [], rfl, by simp, by simp, by simp, by simp, by simp, rfl, rfl, rfl⟩
  | succ n ih =>
    cases hq : q.d.framesToSend with
    | nil => rw [hq] at h; simp at h
    | cons frame rest =>
      rw [hq] at h
      have hn : n ≤ rest.length := by simpa using h
      have hb := boundSlot_cons q frame rest hq
      obtain ⟨q1, added, hrun, hcalls, hmap, hseen, hqueue, hst, hslots, hmode, hcfg⟩ :=
        ih (QCoapConnection.mk
          { q.d with state := ConnectionState.Bound, framesToSend := rest } q.boundSlots
          (q.calls ++
            [{ call := Call.writeData frame.currentPdu frame.host frame.port
               seen := { q.d with state := ConnectionState.Bound, framesToSend := rest } }]))
          hn
      refine ⟨q1,
        { call := Call.writeData frame.currentPdu frame.host frame.port
          seen := { q.d with state := ConnectionState.Bound, framesToSend := rest } } :: added,
        ?_, ?_, ?_, ?_, ?_, ?_, ?_, ?_, ?_⟩
      · show (q.boundSlot).andThen (runSlots n) = _
        rw [hb]
        exact hrun
      · rw [hcalls]
        simp
      · simpa using hmap
      · intro o ho
        rcases List.mem_cons.mp ho with rfl | ho
        · rfl
        · exact hseen o ho
      · simpa using hqueue
      · have hstate : q1.d.state = ConnectionState.Bound := by
          split at hst <;> simpa using hst
        simpa using hstate
      · simpa using hslots
      · simpa using hmode
      · simpa using hcfg

end Draining

section StateLemmas

variable {Cfg : Type}

open QCoapConnection

theorem state_startToSendRequest (q : QCoapConnection Cfg) :
    q.startToSendRequest.conn.d.state = q.d.state := by
  cases hq : q.d.framesToSend with
  | nil => rw [startToSendRequest_nil q hq]; rfl
  | cons frame rest => rw [startToSendRequest_cons q frame rest hq]; rfl

theorem state_boundSlot (q : QCoapConnection Cfg) :
    q.boundSlot.conn.d.state = ConnectionState.Bound := by
  unfold boundSlot
  rw [state_startToSendRequest]

/-- A step that starts in `Bound` ends in `Bound`, whether the chain returns or stops at an
assertion. -/
theorem state_andThen (o : Outcome Cfg) (k : QCoapConnection Cfg → Outcome Cfg)
    (h : o.conn.d.state = ConnectionState.Bound)
    (hk : ∀ q, q.d.state = ConnectionState.Bound → (k q).conn.d.state = ConnectionState.Bound) :
    (o.andThen k).conn.d.state = ConnectionState.Bound := by
  cases o with
  | returned q0 => exact hk q0 h
  | asserted q0 => exact h

theorem state_runSlots (n : Nat) (q : QCoapConnection Cfg)
    (h : q.d.state = ConnectionState.Bound) :
    (runSlots n q).conn.d.state = ConnectionState.Bound := by
  induction n generalizing q with
  | zero => exact h
  | succ n ih => exact state_andThen _ _ (state_boundSlot q) ih

theorem state_sendRequest (q : QCoapConnection Cfg) (request : List (Fin 256))
    (host : String) (port : Fin 65536) :
    (q.sendRequest request host port).conn.d.state = q.d.state := by
  unfold sendRequest
  simp only
  split
  · rfl
  · rw [state_startToSendRequest]

theorem state_setSecurityConfiguration (q : QCoapConnection Cfg) (c : Cfg) :
    (q.setSecurityConfiguration c).d.state = q.d.state := by
  unfold setSecurityConfiguration
  split <;> rfl

theorem state_step (q : QCoapConnection Cfg) (op : Op Cfg)
    (h : q.d.state = ConnectionState.Bound) :
    (q.step op).conn.d.state = ConnectionState.Bound := by
  cases op with
  | send request host port => exact (state_sendRequest q request host port).trans h
  | bound => exact state_runSlots _ q h
  | setSecurityConfiguration c => exact (state_setSecurityConfiguration q c).trans h

theorem state_run (ops : List (Op Cfg)) (q : QCoapConnection Cfg)
    (h : q.d.state = ConnectionState.Bound) :
    (q.run ops).conn.d.state = ConnectionState.Bound := by
  induction ops generalizing q with
  | nil => exact h
  | cons op ops ih => exact state_andThen _ _ (state_step q op h) ih

theorem andThen_andThen (o : Outcome Cfg) (k1 k2 : QCoapConnection Cfg → Outcome Cfg) :
    (o.andThen k1).andThen k2 = o.andThen (fun q => (k1 q).andThen k2) := by
  cases o <;> rfl

theorem run_append (ops1 ops2 : List (Op Cfg)) (q : QCoapConnection Cfg) :
    q.run (ops1 ++ ops2) = (q.run ops1).andThen (fun q1 => q1.run ops2) := by
  induction ops1 generalizing q with
  | nil => rfl
  | cons op ops ih =>
    show (q.step op).andThen (fun q1 => q1.run (ops ++ ops2)) = _
    have : (fun q1 : QCoapConnection Cfg => q1.run (ops ++ ops2)) =
        fun q1 => (q1.run ops).andThen (fun q2 => q2.run ops2) := funext ih
    rw [this]
    exact (andThen_andThen _ _ _).symm

/-- Sends made one after the other while `Unconnected`: each returns, the state stays
`Unconnected`, the frames pile up at the tail of the queue, each send connects one
receiver and calls `bind` once, and nothing is handed to `writeData`. -/
theorem run_sends_unconnected (frames : List CoapFrame) (q : QCoapConnection Cfg)
    (h : q.d.state = ConnectionState.Unconnected) :
    ∃ q1, q.run (frames.map (fun f => Op.send f.currentPdu f.host f.port)) =
        Outcome.returned q1 ∧
      q1.d.state = ConnectionState.Unconnected ∧
      q1.d.framesToSend = q.d.framesToSend ++ frames ∧
      transmitted q1.calls = transmitted q.calls ∧
      bindCalls q1.calls = bindCalls q.calls ++ frames.map (fun f => (f.host, f.port)) ∧
      q1.calls.length = q.calls.length + frames.length ∧
      q1.boundSlots = q.boundSlots + frames.length ∧
      q1.d.securityMode = q.d.securityMode ∧
      q1.d.securityConfiguration = q.d.securityConfiguration := by
  induction frames generalizing q with
  | nil => exact ⟨q, rfl, h, by simp, rfl, by simp, rfl, rfl, rfl, rfl⟩
  | cons f fs ih =>
    have hsend : q.sendRequest f.currentPdu f.host f.port =
        Outcome.returned
          { d := { q.d with framesToSend := q.d.framesToSend ++ [f] }
            boundSlots := q.boundSlots + 1
            calls := q.calls ++
              [{ call := Call.bind f.host f.port
                 seen := { q.d with framesToSend := q.d.framesToSend ++ [f] } }] } := by
      unfold sendRequest
      simp [h, record]
    obtain ⟨q1, hrun, hst, hqueue, htx, hbind, hlen, hslots, hmode, hcfg⟩ :=
      ih (QCoapConnection.mk { q.d with framesToSend := q.d.framesToSend ++ [f] }
        (q.boundSlots + 1)
        (q.calls ++
          [{ call := Call.bind f.host f.port
             seen := { q.d with framesToSend := q.d.framesToSend ++ [f] } }])) h
    refine ⟨q1, ?_, hst, ?_, ?_, ?_, ?_, ?_, hmode, hcfg⟩
    · show (q.sendRequest f.currentPdu f.host f.port).andThen _ = _
      rw [hsend]
      exact hrun
    · simpa using hqueue
    · rw [htx]
      simp [transmitted_append, transmitted, Call.written]
    · rw [hbind]
      simp [bindCalls, List.filterMap_append, Call.bindTarget]
    · rw [hlen]
      simp
      omega
    · rw [hslots]
      simp
      omega

end StateLemmas

section FrameLemmas

variable {Cfg : Type}

open QCoapConnection

/-- The fields that neither a send nor a bound notification touches. -/
theorem kept_startToSendRequest (q : QCoapConnection Cfg) :
    q.startToSendRequest.conn.d.securityMode = q.d.securityMode ∧
    q.startToSendRequest.conn.d.securityConfiguration = q.d.securityConfiguration ∧
    q.startToSendRequest.conn.boundSlots = q.boundSlots := by
  cases hq : q.d.framesToSend with
  | nil => rw [startToSendRequest_nil q hq]; exact ⟨rfl, rfl, rfl⟩
  | cons frame rest => rw [startToSendRequest_cons q frame rest hq]; exact ⟨rfl, rfl, rfl⟩

theorem kept_boundSlot (q : QCoapConnection Cfg) :
    q.boundSlot.conn.d.securityMode = q.d.securityMode ∧
    q.boundSlot.conn.d.securityConfiguration = q.d.securityConfiguration ∧
    q.boundSlot.conn.boundSlots = q.boundSlots := by
  unfold boundSlot
  exact kept_startToSendRequest _

theorem kept_andThen (o : Outcome Cfg) (k : QCoapConnection Cfg → Outcome Cfg)
    (q : QCoapConnection Cfg)
    (h : o.conn.d.securityMode = q.d.securityMode ∧
      o.conn.d.securityConfiguration = q.d.securityConfiguration)
    (hk : ∀ q0, (k q0).conn.d.securityMode = q0.d.securityMode ∧
      (k q0).conn.d.securityConfiguration = q0.d.securityConfiguration) :
    (o.andThen k).conn.d.securityMode = q.d.securityMode ∧
    (o.andThen k).conn.d.securityConfiguration = q.d.securityConfiguration := by
  cases o with
  | returned q0 => exact ⟨(hk q0).1.trans h.1, (hk q0).2.trans h.2⟩
  | asserted q0 => exact h

theorem kept_runSlots (n : Nat) (q : QCoapConnection Cfg) :
    (runSlots n q).conn.d.securityMode = q.d.securityMode ∧
    (runSlots n q).conn.d.securityConfiguration = q.d.securityConfiguration := by
  induction n generalizing q with
  | zero => exact ⟨rfl, rfl⟩
  | succ n ih =>
    exact kept_andThen _ _ q ⟨(kept_boundSlot q).1, (kept_boundSlot q).2.1⟩ ih

theorem kept_sendRequest (q : QCoapConnection Cfg) (request : List (Fin 256))
    (host : String) (port : Fin 65536) :
    (q.sendRequest request host port).conn.d.securityMode = q.d.securityMode ∧
    (q.sendRequest request host port).conn.d.securityConfiguration =
      q.d.securityConfiguration := by
  unfold sendRequest
  simp only
  split
  · exact ⟨rfl, rfl⟩
  · exact ⟨(kept_startToSendRequest _).1, (kept_startToSendRequest _).2.1⟩

/-- What `setSecurityConfiguration` leaves alone: mode, state, queue, connected receivers,
and the calls to `bind` and `writeData` made so far. -/
theorem kept_setSecurityConfiguration (q : QCoapConnection Cfg) (c : Cfg) :
    (q.setSecurityConfiguration c).d.securityMode = q.d.securityMode ∧
    (q.setSecurityConfiguration c).d.state = q.d.state ∧
    (q.setSecurityConfiguration c).d.framesToSend = q.d.framesToSend ∧
    (q.setSecurityConfiguration c).boundSlots = q.boundSlots ∧
    transmitted (q.setSecurityConfiguration c).calls = transmitted q.calls ∧
    bindCalls (q.setSecurityConfiguration c).calls = bindCalls q.calls := by
  unfold setSecurityConfiguration
  split <;>
    simp [record, transmitted, bindCalls, List.filterMap_append, Call.written,
      Call.bindTarget]

theorem mode_step (q : QCoapConnection Cfg) (op : Op Cfg) :
    (q.step op).conn.d.securityMode = q.d.securityMode := by
  cases op with
  | send request host port => exact (kept_sendRequest q request host port).1
  | bound => exact (kept_runSlots _ q).1
  | setSecurityConfiguration c => exact (kept_setSecurityConfiguration q c).1

theorem mode_run (ops : List (Op Cfg)) (q : QCoapConnection Cfg) :
    (q.run ops).conn.d.securityMode = q.d.securityMode := by
  induction ops generalizing q with
  | nil => rfl
  | cons op ops ih =>
    show ((q.step op).andThen (fun q1 => q1.run ops)).conn.d.securityMode = _
    cases hstep : q.step op with
    | returned q0 =>
      have h0 := mode_step q op
      rw [hstep] at h0
      exact (ih q0).trans h0
    | asserted q0 =>
      have h0 := mode_step q op
      rw [hstep] at h0
      exact h0

end FrameLemmas

section Reachable

variable {Cfg : Type}

open QCoapConnection

/-- A log whose calls are `writeData` calls for the frames `fs` transmits exactly `fs`. -/
theorem transmitted_of_calls (log : List (Observed Cfg)) (fs : List CoapFrame)
    (h : log.map (fun o => o.call) =
      fs.map (fun f => Call.writeData f.currentPdu f.host f.port)) :
    transmitted log = fs := by
  have h1 : transmitted log = (log.map (fun o => o.call)).filterMap Call.written := by
    simp [transmitted, List.filterMap_map, Function.comp_def]
  have hfun : (Call.written ∘ fun f : CoapFrame => Call.writeData f.currentPdu f.host f.port) =
      some := by
    funext f
    rfl
  rw [h1, h, List.filterMap_map, hfun, List.filterMap_some]

theorem bindCalls_of_calls (log : List (Observed Cfg)) (fs : List CoapFrame)
    (h : log.map (fun o => o.call) =
      fs.map (fun f => Call.writeData f.currentPdu f.host f.port)) :
    bindCalls log = [] := by
  have h1 : bindCalls log = (log.map (fun o => o.call)).filterMap Call.bindTarget := by
    simp [bindCalls, List.filterMap_map, Function.comp_def]
  rw [h1, h, List.filterMap_map]
  simp [Call.bindTarget, Function.comp_def]

/-- The shape of a connection between operations: either `Unconnected` with one
connected receiver per queued frame and nothing transmitted yet, or `Bound` with an empty queue and at least one
connected receiver. -/
theorem shape_step (q q1 : QCoapConnection Cfg) (op : Op Cfg)
    (hq : (q.d.state = ConnectionState.Unconnected ∧
        q.boundSlots = q.d.framesToSend.length ∧ transmitted q.calls = []) ∨
      (q.d.state = ConnectionState.Bound ∧ q.d.framesToSend = [] ∧ 0 < q.boundSlots))
    (h : q.step op = Outcome.returned q1) :
    (q1.d.state = ConnectionState.Unconnected ∧
        q1.boundSlots = q1.d.framesToSend.length ∧ transmitted q1.calls = []) ∨
      (q1.d.state = ConnectionState.Bound ∧ q1.d.framesToSend = [] ∧ 0 < q1.boundSlots) := by
  cases op with
  | send request host port =>
    have hsend : q.sendRequest request host port = Outcome.returned q1 := h
    rcases hq with ⟨hst, hslots, htx⟩ | ⟨hst, hqueue, hpos⟩
    · unfold sendRequest at hsend
      simp only [hst, if_true] at hsend
      cases hsend
      left
      refine ⟨rfl, ?_, ?_⟩
      · simp [record, hslots]
      · show transmitted (q.calls ++ _) = []
        rw [transmitted_append, htx]
        rfl
    · have hstart : q.sendRequest request host port =
          QCoapConnection.startToSendRequest
            { q with d := { q.d with
                framesToSend := q.d.framesToSend ++ [CoapFrame.mk request host port] } } := by
        unfold sendRequest
        simp [hst]
      rw [hstart,
        startToSendRequest_cons _ (CoapFrame.mk request host port) [] (by simp [hqueue])]
        at hsend
      cases hsend
      right
      exact ⟨hst, rfl, hpos⟩
  | bound =>
    have hb : runSlots q.boundSlots q = Outcome.returned q1 := h
    rcases hq with ⟨hst, hslots, htx⟩ | ⟨hst, hqueue, hpos⟩
    · by_cases hz : q.boundSlots = 0
      · rw [hz] at hb
        have h0 : runSlots 0 q = Outcome.returned q := rfl
        rw [h0] at hb
        cases hb
        left
        exact ⟨hst, hslots, htx⟩
      · obtain ⟨q2, added, hrun, _, _, _, hqueue2, hst2, hslots2, _, _⟩ :=
          runSlots_spec q.boundSlots q (le_of_eq hslots)
        rw [hrun] at hb
        cases hb
        right
        rw [if_neg hz] at hst2
        refine ⟨hst2, ?_, ?_⟩
        · rw [hqueue2, hslots]
          simp
        · rw [hslots2]
          omega
    · obtain ⟨n, hn⟩ : ∃ n, q.boundSlots = n + 1 := ⟨q.boundSlots - 1, by omega⟩
      rw [hn] at hb
      have hfail : q.boundSlot = Outcome.asserted
          { q with d := { q.d with state := ConnectionState.Bound } } := by
        unfold boundSlot
        exact startToSendRequest_nil _ hqueue
      have : runSlots (n + 1) q = (q.boundSlot).andThen (runSlots n) := rfl
      rw [this, hfail] at hb
      cases hb
  | setSecurityConfiguration c =>
    have hs : Outcome.returned (q.setSecurityConfiguration c) = Outcome.returned q1 := h
    cases hs
    obtain ⟨_, hst, hqueue, hslots, htx, _⟩ := kept_setSecurityConfiguration q c
    rw [hst, hqueue, hslots, htx]
    exact hq

theorem shape_run (ops : List (Op Cfg)) (q q1 : QCoapConnection Cfg)
    (hq : (q.d.state = ConnectionState.Unconnected ∧
        q.boundSlots = q.d.framesToSend.length ∧ transmitted q.calls = []) ∨
      (q.d.state = ConnectionState.Bound ∧ q.d.framesToSend = [] ∧ 0 < q.boundSlots))
    (h : q.run ops = Outcome.returned q1) :
    (q1.d.state = ConnectionState.Unconnected ∧
        q1.boundSlots = q1.d.framesToSend.length ∧ transmitted q1.calls = []) ∨
      (q1.d.state = ConnectionState.Bound ∧ q1.d.framesToSend = [] ∧ 0 < q1.boundSlots) := by
  induction ops generalizing q with
  | nil => cases h; exact hq
  | cons op ops ih =>
    obtain ⟨q0, h0, h1⟩ := andThen_returned _ _ _ h
    exact ih q0 (shape_step q q0 op hq h0) h1

end Reachable

/-- C1: FIFO delivery. For every run of operations on a freshly constructed connection
that hits no failed assertion, the triples handed to `writeData`, followed by the frames
still in the outbound queue, are exactly the triples submitted through `send`, in
submission order: nothing is reordered, skipped, altered or delivered twice. -/
theorem C1_fifo_delivery {Cfg : Type} [Inhabited Cfg] (mode : SecurityMode)
    (ops : List (Op Cfg)) (q : QCoapConnection Cfg)
    (h : (QCoapConnection.new mode).run ops = Outcome.returned q) :
    transmitted q.calls ++ q.d.framesToSend = submitted ops := by
  simpa [QCoapConnection.new, QCoapConnectionPrivate.new, transmitted] using
    fifo_run ops (QCoapConnection.new mode) q h

/-- C1 at a concrete run: two sends, the bound notification, a third send. -/
theorem C1_fifo_delivery_witness :
    (QCoapConnection.new (SecurityMode.Secure 0) : QCoapConnection Nat).run
        [Op.send [65] "h1" 5683, Op.send [66] "h2" 5684, Op.bound, Op.send [67] "h3" 5685] =
      Outcome.returned
        ((QCoapConnection.new (SecurityMode.Secure 0) : QCoapConnection Nat).run
          [Op.send [65] "h1" 5683, Op.send [66] "h2" 5684, Op.bound,
            Op.send [67] "h3" 5685]).conn ∧
    transmitted
        ((QCoapConnection.new (SecurityMode.Secure 0) : QCoapConnection Nat).run
          [Op.send [65] "h1" 5683, Op.send [66] "h2" 5684, Op.bound,
            Op.send [67] "h3" 5685]).conn.calls ++
      ((QCoapConnection.new (SecurityMode.Secure 0) : QCoapConnection Nat).run
          [Op.send [65] "h1" 5683, Op.send [66] "h2" 5684, Op.bound,
            Op.send [67] "h3" 5685]).conn.d.framesToSend =
      submitted
        ([Op.send [65] "h1" 5683, Op.send [66] "h2" 5684, Op.bound,
          Op.send [67] "h3" 5685] : List (Op Nat)) :=
  ⟨rfl, C1_fifo_delivery (SecurityMode.Secure 0) _ _ rfl⟩

/-- C2, refuted as stated: after two sends on a fresh connection, one bound notification
returns and causes two `writeData` calls, not one; and a bound notification on a fresh
connection, where nothing is connected, returns and causes none. -/
theorem C2_counterexample :
    ∃ q q1 : QCoapConnection Nat,
      (QCoapConnection.new SecurityMode.NoSec).run
          [Op.send [65] "h1" 5683, Op.send [66] "h2" 5684] = Outcome.returned q ∧
      q.emitBound = Outcome.returned q1 ∧
      transmitted q.calls = [] ∧
      transmitted q1.calls =
        [{ currentPdu := [65], host := "h1", port := 5683 },
         { currentPdu := [66], host := "h2", port := 5684 }] ∧
      (transmitted q1.calls).length ≠ (transmitted q.calls).length + 1 ∧
      (QCoapConnection.new SecurityMode.NoSec : QCoapConnection Nat).emitBound =
        Outcome.returned (QCoapConnection.new SecurityMode.NoSec) :=
  ⟨_, _, rfl, rfl, rfl, rfl, by decide, rfl⟩

/-- C2, amended: a bound notification runs every receiver connected so far, one per send
made while `Unconnected`. In every state with at least as many queued frames as connected
receivers, the notification returns, the calls it causes are exactly one `writeData` per
receiver (so exactly one when one receiver is connected), they hand over the leading
queued frames in queue order, the state is `Bound` when each of them is made, and the
queue loses exactly those frames. -/
theorem C2_bound_delivers_one_frame_per_receiver {Cfg : Type} (q : QCoapConnection Cfg)
    (h : q.boundSlots ≤ q.d.framesToSend.length) :
    ∃ q1 added, q.emitBound = Outcome.returned q1 ∧
      q1.calls = q.calls ++ added ∧
      added.length = q.boundSlots ∧
      added.map (fun o => o.call) =
        (q.d.framesToSend.take q.boundSlots).map
          (fun f => Call.writeData f.currentPdu f.host f.port) ∧
      (∀ o ∈ added, o.seen.state = ConnectionState.Bound) ∧
      q1.d.framesToSend = q.d.framesToSend.drop q.boundSlots ∧
      (0 < q.boundSlots → q1.state = ConnectionState.Bound) := by
  obtain ⟨q1, added, hrun, hcalls, hmap, hseen, hqueue, hst, _, _, _⟩ :=
    runSlots_spec q.boundSlots q h
  refine ⟨q1, added, hrun, hcalls, ?_, hmap, hseen, hqueue, ?_⟩
  · have := congrArg List.length hmap
    simpa [List.length_take, h] using this
  · intro hpos
    have hne : q.boundSlots ≠ 0 := by omega
    simpa [QCoapConnection.state, hne] using hst

/-- C2 amended, at the state reached by two sends on a fresh connection. -/
theorem C2_bound_delivers_one_frame_per_receiver_witness :
    ∃ q1 added,
      ((QCoapConnection.new SecurityMode.NoSec : QCoapConnection Nat).run
          [Op.send [65] "h1" 5683, Op.send [66] "h2" 5684]).conn.emitBound =
        Outcome.returned q1 ∧
      q1.calls =
        ((QCoapConnection.new SecurityMode.NoSec : QCoapConnection Nat).run
          [Op.send [65] "h1" 5683, Op.send [66] "h2" 5684]).conn.calls ++ added ∧
      added.length = 2 ∧
      added.map (fun o => o.call) =
        [Call.writeData [65] "h1" 5683, Call.writeData [66] "h2" 5684] ∧
      (∀ o ∈ added, o.seen.state = ConnectionState.Bound) ∧
      q1.d.framesToSend = [] ∧
      (0 < 2 → q1.state = ConnectionState.Bound) :=
  C2_bound_delivers_one_frame_per_receiver
    ((QCoapConnection.new SecurityMode.NoSec : QCoapConnection Nat).run
      [Op.send [65] "h1" 5683, Op.send [66] "h2" 5684]).conn (by decide)

/-- C3: send while `Bound`. With queue `q.d.framesToSend` and state `Bound`,
`sendRequest` returns after exactly one outgoing call, `writeData` with the fields of the
head of the queue extended by the new frame; the queue afterwards is the tail of that
list; no `bind` call is made, no receiver is connected, and the state stays `Bound`. When
the queue was empty, the head is the frame just submitted. -/
theorem C3_send_while_bound {Cfg : Type} (q : QCoapConnection Cfg)
    (request : List (Fin 256)) (host : String) (port : Fin 65536)
    (h : q.state = ConnectionState.Bound) :
    ∃ head,
      (q.d.framesToSend ++ [CoapFrame.mk request host port]).head? = some head ∧
      q.sendRequest request host port =
        Outcome.returned
          { d := { q.d with
                   framesToSend := (q.d.framesToSend ++ [CoapFrame.mk request host port]).tail }
            boundSlots := q.boundSlots
            calls := q.calls ++
              [{ call := Call.writeData head.currentPdu head.host head.port
                 seen := { q.d with
                           framesToSend :=
                             (q.d.framesToSend ++ [CoapFrame.mk request host port]).tail } }] } ∧
      (q.sendRequest request host port).conn.state = ConnectionState.Bound ∧
      bindCalls (q.sendRequest request host port).conn.calls = bindCalls q.calls ∧
      (q.d.framesToSend = [] → head = CoapFrame.mk request host port) := by
  have hs : q.d.state = ConnectionState.Bound := h
  have hsend : q.sendRequest request host port =
      QCoapConnection.startToSendRequest
        { q with d := { q.d with
            framesToSend := q.d.framesToSend ++ [CoapFrame.mk request host port] } } := by
    unfold QCoapConnection.sendRequest
    simp [hs]
  obtain ⟨head, rest, hcons⟩ :
      ∃ head rest, q.d.framesToSend ++ [CoapFrame.mk request host port] = head :: rest := by
    cases q.d.framesToSend with
    | nil => exact ⟨_, _, rfl⟩
    | cons f fs => exact ⟨f, fs ++ [CoapFrame.mk request host port], rfl⟩
  have hres := startToSendRequest_cons
    ({ q with d := { q.d with
        framesToSend := q.d.framesToSend ++ [CoapFrame.mk request host port] } } :
      QCoapConnection Cfg) head rest hcons
  rw [← hsend] at hres
  refine ⟨head, by rw [hcons]; rfl, ?_, ?_, ?_, ?_⟩
  · rw [hres, hcons]
    rfl
  · rw [hres]
    exact hs
  · rw [hres]
    simp [Outcome.conn, bindCalls, List.filterMap_append, Call.bindTarget]
  · intro hnil
    rw [hnil] at hcons
    cases hcons
    rfl

/-- C3 at a concrete connection that is `Bound` with one older frame still queued: the
older frame is the one transmitted, the new one stays queued. -/
theorem C3_send_while_bound_witness :
    (QCoapConnection.mk
        (QCoapConnectionPrivate.mk SecurityMode.NoSec ConnectionState.Bound
          [CoapFrame.mk [65] "h1" 5683] (0 : Nat)) 1 []).state = ConnectionState.Bound ∧
    ∃ head,
      ([CoapFrame.mk [65] "h1" 5683] ++ [CoapFrame.mk [66] "h2" 5684]).head? = some head ∧
      (QCoapConnection.mk
          (QCoapConnectionPrivate.mk SecurityMode.NoSec ConnectionState.Bound
            [CoapFrame.mk [65] "h1" 5683] (0 : Nat)) 1 []).sendRequest [66] "h2" 5684 =
        Outcome.returned
          { d := QCoapConnectionPrivate.mk SecurityMode.NoSec ConnectionState.Bound
              ([CoapFrame.mk [65] "h1" 5683] ++ [CoapFrame.mk [66] "h2" 5684]).tail (0 : Nat)
            boundSlots := 1
            calls := [] ++
              [{ call := Call.writeData head.currentPdu head.host head.port
                 seen := QCoapConnectionPrivate.mk SecurityMode.NoSec ConnectionState.Bound
                   ([CoapFrame.mk [65] "h1" 5683] ++ [CoapFrame.mk [66] "h2" 5684]).tail
                   (0 : Nat) }] } ∧
      ((QCoapConnection.mk
          (QCoapConnectionPrivate.mk SecurityMode.NoSec ConnectionState.Bound
            [CoapFrame.mk [65] "h1" 5683] (0 : Nat)) 1 []).sendRequest
              [66] "h2" 5684).conn.state = ConnectionState.Bound ∧
      bindCalls ((QCoapConnection.mk
          (QCoapConnectionPrivate.mk SecurityMode.NoSec ConnectionState.Bound
            [CoapFrame.mk [65] "h1" 5683] (0 : Nat)) 1 []).sendRequest
              [66] "h2" 5684).conn.calls = bindCalls ([] : List (Observed Nat)) ∧
      ([CoapFrame.mk [65] "h1" 5683] = [] → head = CoapFrame.mk [66] "h2" 5684) :=
  ⟨rfl, C3_send_while_bound
    (QCoapConnection.mk
      (QCoapConnectionPrivate.mk SecurityMode.NoSec ConnectionState.Bound
        [CoapFrame.mk [65] "h1" 5683] (0 : Nat)) 1 []) [66] "h2" 5684 rfl⟩

/-- C4: queue content while `Unconnected`. Any number of sends issued on a freshly
constructed connection with no bound notification in between all return; afterwards the
state is still `Unconnected`, nothing has been handed to `writeData`, and the outbound
queue holds exactly the submitted frames in submission order. -/
theorem C4_queue_while_unconnected {Cfg : Type} [Inhabited Cfg] (mode : SecurityMode)
    (frames : List CoapFrame) :
    ∃ q : QCoapConnection Cfg,
      (QCoapConnection.new mode).run
          (frames.map (fun f => Op.send f.currentPdu f.host f.port)) = Outcome.returned q ∧
      q.state = ConnectionState.Unconnected ∧
      transmitted q.calls = [] ∧
      q.d.framesToSend = frames := by
  obtain ⟨q, hrun, hst, hqueue, htx, _⟩ :=
    run_sends_unconnected frames (QCoapConnection.new mode : QCoapConnection Cfg) rfl
  exact ⟨q, hrun, hst, htx, by simpa [QCoapConnection.new, QCoapConnectionPrivate.new] using hqueue⟩

/-- C5: send while `Unconnected`. `sendRequest` returns with the new frame appended at the
tail of the queue, one more receiver connected to `bound`, exactly one outgoing call,
`bind` with the host and port of the send, made after the frame is queued, no `writeData`
call, and the state still `Unconnected`. -/
theorem C5_send_while_unconnected {Cfg : Type} (q : QCoapConnection Cfg)
    (request : List (Fin 256)) (host : String) (port : Fin 65536)
    (h : q.state = ConnectionState.Unconnected) :
    q.sendRequest request host port =
        Outcome.returned
          { d := { q.d with
                   framesToSend := q.d.framesToSend ++ [CoapFrame.mk request host port] }
            boundSlots := q.boundSlots + 1
            calls := q.calls ++
              [{ call := Call.bind host port
                 seen := { q.d with
                           framesToSend :=
                             q.d.framesToSend ++ [CoapFrame.mk request host port] } }] } ∧
      (q.sendRequest request host port).conn.state = ConnectionState.Unconnected ∧
      transmitted (q.sendRequest request host port).conn.calls = transmitted q.calls ∧
      bindCalls (q.sendRequest request host port).conn.calls =
        bindCalls q.calls ++ [(host, port)] := by
  have hs : q.d.state = ConnectionState.Unconnected := h
  have hsend : q.sendRequest request host port =
      Outcome.returned
        { d := { q.d with
                 framesToSend := q.d.framesToSend ++ [CoapFrame.mk request host port] }
          boundSlots := q.boundSlots + 1
          calls := q.calls ++
            [{ call := Call.bind host port
               seen := { q.d with
                         framesToSend :=
                           q.d.framesToSend ++ [CoapFrame.mk request host port] } }] } := by
    unfold QCoapConnection.sendRequest
    simp [hs, QCoapConnection.record]
  refine ⟨hsend, ?_, ?_, ?_⟩
  · rw [hsend]
    exact hs
  · rw [hsend]
    simp [Outcome.conn, transmitted_append, transmitted, Call.written]
  · rw [hsend]
    simp [Outcome.conn, bindCalls, List.filterMap_append, Call.bindTarget]

/-- C5 at a freshly constructed secure connection, first send. -/
theorem C5_send_while_unconnected_witness :
    (QCoapConnection.new (SecurityMode.Secure 0) : QCoapConnection Nat).state =
      ConnectionState.Unconnected ∧
    ((QCoapConnection.new (SecurityMode.Secure 0) : QCoapConnection Nat).sendRequest
        [65] "h1" 5683 =
      Outcome.returned
        { d := QCoapConnectionPrivate.mk (SecurityMode.Secure 0) ConnectionState.Unconnected
            ([] ++ [CoapFrame.mk [65] "h1" 5683]) default
          boundSlots := 0 + 1
          calls := [] ++
            [{ call := Call.bind "h1" 5683
               seen := QCoapConnectionPrivate.mk (SecurityMode.Secure 0)
                 ConnectionState.Unconnected ([] ++ [CoapFrame.mk [65] "h1" 5683]) default }] } ∧
      ((QCoapConnection.new (SecurityMode.Secure 0) : QCoapConnection Nat).sendRequest
        [65] "h1" 5683).conn.state = ConnectionState.Unconnected ∧
      transmitted ((QCoapConnection.new (SecurityMode.Secure 0) : QCoapConnection Nat).sendRequest
        [65] "h1" 5683).conn.calls = transmitted ([] : List (Observed Nat)) ∧
      bindCalls ((QCoapConnection.new (SecurityMode.Secure 0) : QCoapConnection Nat).sendRequest
        [65] "h1" 5683).conn.calls =
        bindCalls ([] : List (Observed Nat)) ++ [("h1", 5683)]) :=
  ⟨rfl, C5_send_while_unconnected
    (QCoapConnection.new (SecurityMode.Secure 0) : QCoapConnection Nat) [65] "h1" 5683 rfl⟩

/-- C6: first-send scenario. For every security mode, payload, host and port, on a freshly
constructed connection one send followed by one bound notification returns with the state
`Bound`, the outbound queue empty, and `writeData` called exactly once, with that payload,
host and port; the only other outgoing call is the `bind` made by the send. -/
theorem C6_first_send_scenario {Cfg : Type} [Inhabited Cfg] (mode : SecurityMode)
    (request : List (Fin 256)) (host : String) (port : Fin 65536) :
    ∃ q : QCoapConnection Cfg,
      (QCoapConnection.new mode).run [Op.send request host port, Op.bound] =
        Outcome.returned q ∧
      q.state = ConnectionState.Bound ∧
      q.d.framesToSend = [] ∧
      transmitted q.calls = [CoapFrame.mk request host port] ∧
      q.calls.map (fun o => o.call) = [Call.bind host port, Call.writeData request host port] :=
  ⟨_, rfl, rfl, rfl, rfl, rfl⟩

/-- C7: `setSecurityConfiguration` on a secure connection. When the security mode is not
`NoSec`, the call replaces the stored configuration by the new one, whatever was stored
before, so that `securityConfiguration()` returns it; it makes exactly one outgoing call,
the emission of `securityConfigurationChanged`, and at that emission the stored
configuration is already the new one. Nothing else in the private data changes. -/
theorem C7_set_configuration_secure {Cfg : Type} (q : QCoapConnection Cfg) (c : Cfg)
    (h : q.securityMode ≠ SecurityMode.NoSec) :
    (q.setSecurityConfiguration c).securityConfiguration = c ∧
    (q.setSecurityConfiguration c).d = { q.d with securityConfiguration := c } ∧
    (q.setSecurityConfiguration c).calls =
      q.calls ++
        [{ call := Call.securityConfigurationChanged
           seen := { q.d with securityConfiguration := c } }] ∧
    changedCount (q.setSecurityConfiguration c).calls = changedCount q.calls + 1 := by
  have hsec : q.isSecure = true := by
    have hm : q.d.securityMode ≠ SecurityMode.NoSec := h
    simpa [QCoapConnection.isSecure] using hm
  have hset : q.setSecurityConfiguration c =
      { d := { q.d with securityConfiguration := c }
        boundSlots := q.boundSlots
        calls := q.calls ++
          [{ call := Call.securityConfigurationChanged
             seen := { q.d with securityConfiguration := c } }] } := by
    unfold QCoapConnection.setSecurityConfiguration
    simp [hsec, QCoapConnection.record]
  rw [hset]
  refine ⟨rfl, rfl, rfl, ?_⟩
  simp [changedCount, List.filter_append]

/-- C7 at a secure connection that already stores configuration `1`: setting `2` makes the
getter return `2` and emits the signal once, with `2` already stored. -/
theorem C7_set_configuration_secure_witness :
    (QCoapConnection.mk
        (QCoapConnectionPrivate.mk (SecurityMode.Secure 0) ConnectionState.Unconnected []
          (1 : Nat)) 0 []).securityMode ≠ SecurityMode.NoSec ∧
    ((QCoapConnection.mk
        (QCoapConnectionPrivate.mk (SecurityMode.Secure 0) ConnectionState.Unconnected []
          (1 : Nat)) 0 []).setSecurityConfiguration 2).securityConfiguration = 2 ∧
    ((QCoapConnection.mk
        (QCoapConnectionPrivate.mk (SecurityMode.Secure 0) ConnectionState.Unconnected []
          (1 : Nat)) 0 []).setSecurityConfiguration 2).d =
      QCoapConnectionPrivate.mk (SecurityMode.Secure 0) ConnectionState.Unconnected [] 2 ∧
    ((QCoapConnection.mk
        (QCoapConnectionPrivate.mk (SecurityMode.Secure 0) ConnectionState.Unconnected []
          (1 : Nat)) 0 []).setSecurityConfiguration 2).calls =
      [] ++
        [{ call := Call.securityConfigurationChanged
           seen := QCoapConnectionPrivate.mk (SecurityMode.Secure 0)
             ConnectionState.Unconnected [] 2 }] ∧
    changedCount ((QCoapConnection.mk
        (QCoapConnectionPrivate.mk (SecurityMode.Secure 0) ConnectionState.Unconnected []
          (1 : Nat)) 0 []).setSecurityConfiguration 2).calls =
      changedCount ([] : List (Observed Nat)) + 1 :=
  ⟨by decide, C7_set_configuration_secure
    (QCoapConnection.mk
      (QCoapConnectionPrivate.mk (SecurityMode.Secure 0) ConnectionState.Unconnected []
        (1 : Nat)) 0 []) 2 (by decide)⟩

/-- C8: `setSecurityConfiguration` on a connection without security is a no-op, never an
error. When the security mode is `NoSec`, the call returns, hits no assertion, leaves the
private data as it was, so that `securityConfiguration()` returns what it returned
before (the default value on a fresh connection); its only outgoing call is the warning,
and no `securityConfigurationChanged` is emitted. -/
theorem C8_set_configuration_nosec {Cfg : Type} [Inhabited Cfg] (q : QCoapConnection Cfg)
    (c : Cfg) (h : q.securityMode = SecurityMode.NoSec) :
    q.step (Op.setSecurityConfiguration c) =
      Outcome.returned (q.setSecurityConfiguration c) ∧
    (q.setSecurityConfiguration c).securityConfiguration = q.securityConfiguration ∧
    (q.setSecurityConfiguration c).d = q.d ∧
    (q.setSecurityConfiguration c).calls =
      q.calls ++ [{ call := Call.qCWarning, seen := q.d }] ∧
    changedCount (q.setSecurityConfiguration c).calls = changedCount q.calls ∧
    ((QCoapConnection.new SecurityMode.NoSec : QCoapConnection Cfg).setSecurityConfiguration
      c).securityConfiguration = default := by
  have hsec : q.isSecure = false := by
    have hm : q.d.securityMode = SecurityMode.NoSec := h
    simp [QCoapConnection.isSecure, hm]
  have hset : q.setSecurityConfiguration c =
      { d := q.d
        boundSlots := q.boundSlots
        calls := q.calls ++ [{ call := Call.qCWarning, seen := q.d }] } := by
    unfold QCoapConnection.setSecurityConfiguration
    simp [hsec, QCoapConnection.record]
  refine ⟨rfl, ?_, ?_, ?_, ?_, rfl⟩
  · rw [hset]
    rfl
  · rw [hset]
  · rw [hset]
  · rw [hset]
    simp [changedCount, List.filter_append]

/-- C8 at a freshly constructed `NoSec` connection. -/
theorem C8_set_configuration_nosec_witness :
    (QCoapConnection.new SecurityMode.NoSec : QCoapConnection Nat).securityMode =
      SecurityMode.NoSec ∧
    ((QCoapConnection.new SecurityMode.NoSec : QCoapConnection Nat).step
        (Op.setSecurityConfiguration 2) =
      Outcome.returned
        ((QCoapConnection.new SecurityMode.NoSec : QCoapConnection Nat).setSecurityConfiguration
          2) ∧
    ((QCoapConnection.new SecurityMode.NoSec : QCoapConnection Nat).setSecurityConfiguration
        2).securityConfiguration =
      (QCoapConnection.new SecurityMode.NoSec : QCoapConnection Nat).securityConfiguration ∧
    ((QCoapConnection.new SecurityMode.NoSec : QCoapConnection Nat).setSecurityConfiguration
        2).d = (QCoapConnection.new SecurityMode.NoSec : QCoapConnection Nat).d ∧
    ((QCoapConnection.new SecurityMode.NoSec : QCoapConnection Nat).setSecurityConfiguration
        2).calls =
      [] ++ [{ call := Call.qCWarning
               seen := (QCoapConnection.new SecurityMode.NoSec : QCoapConnection Nat).d }] ∧
    changedCount
        ((QCoapConnection.new SecurityMode.NoSec : QCoapConnection Nat).setSecurityConfiguration
          2).calls = changedCount ([] : List (Observed Nat)) ∧
    ((QCoapConnection.new SecurityMode.NoSec : QCoapConnection Nat).setSecurityConfiguration
      2).securityConfiguration = default) :=
  ⟨rfl, C8_set_configuration_nosec
    (QCoapConnection.new SecurityMode.NoSec : QCoapConnection Nat) 2 rfl⟩

/-- C9: the connection state is monotone. A freshly constructed connection is
`Unconnected`; from any connection whose state is `Bound`, every run of sends, bound
notifications and `setSecurityConfiguration` calls ends, or stops at a failed assertion,
with the state `Bound`; hence once a run from a fresh connection has reached `Bound`, every
continuation of that run is in `Bound` too. -/
theorem C9_state_is_monotone {Cfg : Type} [Inhabited Cfg] :
    (∀ mode : SecurityMode,
      (QCoapConnection.new mode : QCoapConnection Cfg).state = ConnectionState.Unconnected) ∧
    (∀ (q : QCoapConnection Cfg) (ops : List (Op Cfg)),
      q.state = ConnectionState.Bound → (q.run ops).conn.state = ConnectionState.Bound) ∧
    (∀ (mode : SecurityMode) (ops1 ops2 : List (Op Cfg)),
      ((QCoapConnection.new mode : QCoapConnection Cfg).run ops1).conn.state =
          ConnectionState.Bound →
        ((QCoapConnection.new mode : QCoapConnection Cfg).run (ops1 ++ ops2)).conn.state =
          ConnectionState.Bound) := by
  refine ⟨fun _ => rfl, fun q ops h => state_run ops q h, ?_⟩
  intro mode ops1 ops2 h
  rw [run_append]
  exact state_andThen _ _ h (fun q hq => state_run ops2 q hq)

/-- C9 at a concrete run: `Bound` after a send and a bound notification, and still `Bound`
after a further send and a `setSecurityConfiguration`. -/
theorem C9_state_is_monotone_witness :
    ((QCoapConnection.new (SecurityMode.Secure 0) : QCoapConnection Nat).run
        [Op.send [65] "h1" 5683, Op.bound]).conn.state = ConnectionState.Bound ∧
    ((QCoapConnection.new (SecurityMode.Secure 0) : QCoapConnection Nat).run
        ([Op.send [65] "h1" 5683, Op.bound] ++
          [Op.send [66] "h2" 5684, Op.setSecurityConfiguration 3])).conn.state =
      ConnectionState.Bound :=
  ⟨rfl, (@C9_state_is_monotone Nat _).2.2 (SecurityMode.Secure 0)
    [Op.send [65] "h1" 5683, Op.bound]
    [Op.send [66] "h2" 5684, Op.setSecurityConfiguration 3] rfl⟩

/-- C10: for every connection, `isSecure()` is true if and only if `securityMode()` is not
`NoSec`; in particular for the connection constructed with any given mode. -/
theorem C10_isSecure_iff {Cfg : Type} [Inhabited Cfg] :
    (∀ q : QCoapConnection Cfg,
      q.isSecure = true ↔ q.securityMode ≠ SecurityMode.NoSec) ∧
    (∀ mode : SecurityMode,
      (QCoapConnection.new mode : QCoapConnection Cfg).isSecure = true ↔
        mode ≠ SecurityMode.NoSec) := by
  constructor
  · intro q
    simp [QCoapConnection.isSecure, QCoapConnection.securityMode]
  · intro mode
    simp [QCoapConnection.isSecure, QCoapConnection.new, QCoapConnectionPrivate.new]

/-- C11: the security mode is fixed at construction. For every mode and every sequence of
sends, bound notifications and `setSecurityConfiguration` calls applied to a connection
constructed with that mode, also one that stops at a failed assertion, `securityMode()`
still returns that mode and `isSecure()` returns what it returned right after
construction. -/
theorem C11_security_mode_is_fixed {Cfg : Type} [Inhabited Cfg] (mode : SecurityMode)
    (ops : List (Op Cfg)) :
    ((QCoapConnection.new mode : QCoapConnection Cfg).run ops).conn.securityMode = mode ∧
    ((QCoapConnection.new mode : QCoapConnection Cfg).run ops).conn.isSecure =
      (QCoapConnection.new mode : QCoapConnection Cfg).isSecure := by
  have h : ((QCoapConnection.new mode : QCoapConnection Cfg).run ops).conn.d.securityMode =
      mode := mode_run ops (QCoapConnection.new mode)
  refine ⟨h, ?_⟩
  unfold QCoapConnection.isSecure
  rw [h]
  rfl

/-- C12, the code at the failing input: after two sends and the bound notification that
answers the first `bind`, both frames are transmitted, the queue is empty and both
receivers are still connected; the bound notification that answers the second `bind` runs
them again, and the first of them fails the assertion of `startToSendRequest` instead of
returning with nothing changed. -/
theorem C12_receivers_run_again_and_assert :
    ∃ q1 : QCoapConnection Nat,
      (QCoapConnection.new SecurityMode.NoSec).run
          [Op.send [65] "h1" 5683, Op.send [66] "h2" 5684, Op.bound] = Outcome.returned q1 ∧
      transmitted q1.calls = [CoapFrame.mk [65] "h1" 5683, CoapFrame.mk [66] "h2" 5684] ∧
      q1.d.framesToSend = [] ∧
      q1.boundSlots = 2 ∧
      q1.emitBound = Outcome.asserted q1 ∧
      q1.emitBound ≠ Outcome.returned q1 :=
  ⟨_, rfl, rfl, rfl, rfl, rfl, by decide⟩

/-- C13, refuted as stated: on a freshly constructed connection, on which send has never
been called, a bound notification returns and leaves the state `Unconnected`. -/
theorem C13_counterexample :
    (QCoapConnection.new SecurityMode.NoSec : QCoapConnection Nat).state =
      ConnectionState.Unconnected ∧
    (QCoapConnection.new SecurityMode.NoSec : QCoapConnection Nat).emitBound =
      Outcome.returned (QCoapConnection.new SecurityMode.NoSec) ∧
    (QCoapConnection.new SecurityMode.NoSec : QCoapConnection Nat).emitBound.conn.state ≠
      ConnectionState.Bound :=
  ⟨rfl, rfl, by decide⟩

/-- C13, amended: the state is set to `Bound` by the receivers that sends connect, not by
the notification itself. For every connection whose state is `Unconnected`: when at least
one receiver is connected and at least as many frames are queued as receivers are
connected, a bound notification returns and leaves the state `Bound`; when no receiver is
connected, it returns and changes nothing, so the state stays `Unconnected`. In a state
reached from a fresh connection the number of connected receivers is the number of sends
made so far. -/
theorem C13_bound_sets_state_through_receivers {Cfg : Type} [Inhabited Cfg]
    (q : QCoapConnection Cfg) (h : q.state = ConnectionState.Unconnected) :
    (0 < q.boundSlots → q.boundSlots ≤ q.d.framesToSend.length →
      ∃ q1, q.emitBound = Outcome.returned q1 ∧ q1.state = ConnectionState.Bound) ∧
    (q.boundSlots = 0 →
      q.emitBound = Outcome.returned q ∧ q.emitBound.conn.state = ConnectionState.Unconnected) ∧
    (∀ (mode : SecurityMode) (ops : List (Op Cfg)),
      (QCoapConnection.new mode).run ops = Outcome.returned q →
        q.boundSlots = (submitted ops).length ∧
        q.boundSlots = q.d.framesToSend.length) := by
  have hs : q.d.state = ConnectionState.Unconnected := h
  refine ⟨?_, ?_, ?_⟩
  · intro hpos hle
    obtain ⟨q1, _, hrun, _, _, _, _, hst, _, _, _⟩ := runSlots_spec q.boundSlots q hle
    refine ⟨q1, hrun, ?_⟩
    have hne : q.boundSlots ≠ 0 := by omega
    rw [if_neg hne] at hst
    exact hst
  · intro hz
    have h0 : q.emitBound = Outcome.returned q := by
      unfold QCoapConnection.emitBound
      rw [hz]
      rfl
    rw [h0]
    exact ⟨rfl, hs⟩
  · intro mode ops hrun
    have hshape := shape_run ops (QCoapConnection.new mode) q
      (Or.inl ⟨rfl, rfl, rfl⟩) hrun
    have hfifo := fifo_run ops (QCoapConnection.new mode) q hrun
    rcases hshape with ⟨_, hslots, htx⟩ | ⟨hb, _, _⟩
    · rw [htx] at hfifo
      have hq : q.d.framesToSend = submitted ops := by
        simpa [QCoapConnection.new, QCoapConnectionPrivate.new, transmitted] using hfifo
      exact ⟨by rw [hslots, hq], hslots⟩
    · rw [hs] at hb
      cases hb

/-- C13 amended, at the state reached by one send on a fresh connection. -/
theorem C13_bound_sets_state_through_receivers_witness :
    ((QCoapConnection.new SecurityMode.NoSec : QCoapConnection Nat).run
        [Op.send [65] "h1" 5683]).conn.state = ConnectionState.Unconnected ∧
    ∃ q1, ((QCoapConnection.new SecurityMode.NoSec : QCoapConnection Nat).run
        [Op.send [65] "h1" 5683]).conn.emitBound = Outcome.returned q1 ∧
      q1.state = ConnectionState.Bound :=
  ⟨rfl, (C13_bound_sets_state_through_receivers
    ((QCoapConnection.new SecurityMode.NoSec : QCoapConnection Nat).run
      [Op.send [65] "h1" 5683]).conn rfl).1 (by decide) (by decide)⟩

/-- C14: `startToSendRequest` on a non-empty queue. With queue `f :: rest` it returns
after exactly one outgoing call, `writeData` with the unmodified fields of `f`; the queue
is then `rest`; state, security mode, security configuration and the connected receivers
are unchanged. -/
theorem C14_deliver_next_nonempty {Cfg : Type} (q : QCoapConnection Cfg) (f : CoapFrame)
    (rest : List CoapFrame) (h : q.d.framesToSend = f :: rest) :
    q.startToSendRequest =
      Outcome.returned
        { d := { q.d with framesToSend := rest }
          boundSlots := q.boundSlots
          calls := q.calls ++
            [{ call := Call.writeData f.currentPdu f.host f.port
               seen := { q.d with framesToSend := rest } }] } ∧
    q.startToSendRequest.conn.d.framesToSend = rest ∧
    transmitted q.startToSendRequest.conn.calls = transmitted q.calls ++ [f] ∧
    q.startToSendRequest.conn.calls.length = q.calls.length + 1 ∧
    q.startToSendRequest.conn.state = q.state ∧
    q.startToSendRequest.conn.securityMode = q.securityMode ∧
    q.startToSendRequest.conn.securityConfiguration = q.securityConfiguration := by
  have hres := startToSendRequest_cons q f rest h
  rw [hres]
  refine ⟨rfl, rfl, ?_, ?_, rfl, rfl, rfl⟩
  · simp [Outcome.conn, transmitted_append, transmitted, Call.written]
  · simp [Outcome.conn]

/-- C14 at a concrete connection with two queued frames. -/
theorem C14_deliver_next_nonempty_witness :
    (QCoapConnection.mk
        (QCoapConnectionPrivate.mk SecurityMode.NoSec ConnectionState.Bound
          [CoapFrame.mk [65] "h1" 5683, CoapFrame.mk [66] "h2" 5684] (0 : Nat)) 1
        []).d.framesToSend = CoapFrame.mk [65] "h1" 5683 :: [CoapFrame.mk [66] "h2" 5684] ∧
    (QCoapConnection.mk
        (QCoapConnectionPrivate.mk SecurityMode.NoSec ConnectionState.Bound
          [CoapFrame.mk [65] "h1" 5683, CoapFrame.mk [66] "h2" 5684] (0 : Nat)) 1
        []).startToSendRequest.conn.d.framesToSend = [CoapFrame.mk [66] "h2" 5684] ∧
    transmitted (QCoapConnection.mk
        (QCoapConnectionPrivate.mk SecurityMode.NoSec ConnectionState.Bound
          [CoapFrame.mk [65] "h1" 5683, CoapFrame.mk [66] "h2" 5684] (0 : Nat)) 1
        []).startToSendRequest.conn.calls = [] ++ [CoapFrame.mk [65] "h1" 5683] :=
  ⟨rfl,
    (C14_deliver_next_nonempty
      (QCoapConnection.mk
        (QCoapConnectionPrivate.mk SecurityMode.NoSec ConnectionState.Bound
          [CoapFrame.mk [65] "h1" 5683, CoapFrame.mk [66] "h2" 5684] (0 : Nat)) 1 [])
      (CoapFrame.mk [65] "h1" 5683) [CoapFrame.mk [66] "h2" 5684] rfl).2.1,
    (C14_deliver_next_nonempty
      (QCoapConnection.mk
        (QCoapConnectionPrivate.mk SecurityMode.NoSec ConnectionState.Bound
          [CoapFrame.mk [65] "h1" 5683, CoapFrame.mk [66] "h2" 5684] (0 : Nat)) 1 [])
      (CoapFrame.mk [65] "h1" 5683) [CoapFrame.mk [66] "h2" 5684] rfl).2.2.1⟩

/-- C16: drain on first bound. After one or more sends made on a freshly constructed
connection, the first bound notification returns, having run one receiver per send; it
hands every queued frame to `writeData`, in submission order and only these, and leaves
the state `Bound` and the queue empty. -/
theorem C16_drain_on_first_bound {Cfg : Type} [Inhabited Cfg] (mode : SecurityMode)
    (frames : List CoapFrame) (h : frames ≠ []) :
    ∃ q0 q : QCoapConnection Cfg,
      (QCoapConnection.new mode).run
          (frames.map (fun f => Op.send f.currentPdu f.host f.port)) = Outcome.returned q0 ∧
      q0.boundSlots = frames.length ∧
      transmitted q0.calls = [] ∧
      q0.emitBound = Outcome.returned q ∧
      (QCoapConnection.new mode).run
          (frames.map (fun f => Op.send f.currentPdu f.host f.port) ++ [Op.bound]) =
        Outcome.returned q ∧
      transmitted q.calls = frames ∧
      q.calls.length = q0.calls.length + frames.length ∧
      q.state = ConnectionState.Bound ∧
      q.d.framesToSend = [] := by
  obtain ⟨q0, hrun0, _, hqueue0, htx0, _, _, hslots0, _, _⟩ :=
    run_sends_unconnected frames (QCoapConnection.new mode : QCoapConnection Cfg) rfl
  have hq0 : q0.d.framesToSend = frames := by
    simpa [QCoapConnection.new, QCoapConnectionPrivate.new] using hqueue0
  have hs0 : q0.boundSlots = frames.length := by
    simpa [QCoapConnection.new] using hslots0
  have hle : q0.boundSlots ≤ q0.d.framesToSend.length := by
    rw [hs0, hq0]
  obtain ⟨q, added, hrun, hcalls, hmap, _, hqueue, hst, _, _, _⟩ :=
    runSlots_spec q0.boundSlots q0 hle
  have hlen : frames.length ≠ 0 := by
    intro hz
    exact h (List.length_eq_zero.mp hz)
  rw [hs0, hq0, List.take_length] at hmap
  refine ⟨q0, q, hrun0, hs0, htx0, hrun, ?_, ?_, ?_, ?_, ?_⟩
  · rw [run_append, hrun0]
    show (q0.emitBound).andThen (fun q1 => q1.run []) = _
    unfold QCoapConnection.emitBound
    rw [hrun]
    rfl
  · rw [hcalls, transmitted_append, htx0, transmitted_of_calls added frames hmap]
    rfl
  · rw [hcalls, List.length_append]
    have := congrArg List.length hmap
    simp only [List.length_map] at this
    rw [this]
  · rw [hs0, if_neg hlen] at hst
    exact hst
  · rw [hqueue, hs0, hq0, List.drop_length]

/-- C16 with two sends. -/
theorem C16_drain_on_first_bound_witness :
    ([CoapFrame.mk [65] "h1" 5683, CoapFrame.mk [66] "h2" 5684] ≠ []) ∧
    ∃ q0 q : QCoapConnection Nat,
      (QCoapConnection.new SecurityMode.NoSec).run
          ([CoapFrame.mk [65] "h1" 5683, CoapFrame.mk [66] "h2" 5684].map
            (fun f => Op.send f.currentPdu f.host f.port)) = Outcome.returned q0 ∧
      q0.boundSlots = [CoapFrame.mk [65] "h1" 5683, CoapFrame.mk [66] "h2" 5684].length ∧
      transmitted q0.calls = [] ∧
      q0.emitBound = Outcome.returned q ∧
      (QCoapConnection.new SecurityMode.NoSec).run
          ([CoapFrame.mk [65] "h1" 5683, CoapFrame.mk [66] "h2" 5684].map
            (fun f => Op.send f.currentPdu f.host f.port) ++ [Op.bound]) =
        Outcome.returned q ∧
      transmitted q.calls = [CoapFrame.mk [65] "h1" 5683, CoapFrame.mk [66] "h2" 5684] ∧
      q.calls.length =
        q0.calls.length + [CoapFrame.mk [65] "h1" 5683, CoapFrame.mk [66] "h2" 5684].length ∧
      q.state = ConnectionState.Bound ∧
      q.d.framesToSend = [] :=
  ⟨by decide, C16_drain_on_first_bound SecurityMode.NoSec
    [CoapFrame.mk [65] "h1" 5683, CoapFrame.mk [66] "h2" 5684] (by decide)⟩

/-- C17, the code at the failing input: two sends on a fresh connection call `bind` twice;
the transport answers each `bind` with one bound notification. The first notification
returns with both frames transmitted; the second one invokes `startToSendRequest` on the
empty queue, and the run stops at the failed assertion. -/
theorem C17_assertion_fails_on_second_bound :
    ∃ q2 q3 : QCoapConnection Nat,
      (QCoapConnection.new SecurityMode.NoSec).run
          [Op.send [65] "h1" 5683, Op.send [66] "h2" 5684] = Outcome.returned q2 ∧
      bindCalls q2.calls = [("h1", 5683), ("h2", 5684)] ∧
      (QCoapConnection.new SecurityMode.NoSec).run
          [Op.send [65] "h1" 5683, Op.send [66] "h2" 5684, Op.bound] = Outcome.returned q3 ∧
      q3.d.framesToSend = [] ∧
      (QCoapConnection.new SecurityMode.NoSec).run
          [Op.send [65] "h1" 5683, Op.send [66] "h2" 5684, Op.bound, Op.bound] =
        Outcome.asserted q3 ∧
      q3.boundSlot = Outcome.asserted q3 :=
  ⟨_, _, rfl, rfl, rfl, rfl, rfl, rfl⟩

/-- C18: bound implies drained. In every state reached from a freshly constructed
connection by a run that hits no failed assertion, a state `Bound` comes with an empty
outbound queue; hence a send made in it returns after exactly one outgoing call,
`writeData` with the payload, host and port it was given, and leaves the queue empty. -/
theorem C18_bound_implies_drained {Cfg : Type} [Inhabited Cfg] (mode : SecurityMode)
    (ops : List (Op Cfg)) (q : QCoapConnection Cfg)
    (hrun : (QCoapConnection.new mode).run ops = Outcome.returned q)
    (hst : q.state = ConnectionState.Bound) :
    q.d.framesToSend = [] ∧
    ∀ (request : List (Fin 256)) (host : String) (port : Fin 65536),
      q.sendRequest request host port =
        Outcome.returned
          { q with calls := q.calls ++ [{ call := Call.writeData request host port
                                          seen := q.d }] } := by
  have hs : q.d.state = ConnectionState.Bound := hst
  have hshape := shape_run ops (QCoapConnection.new mode) q (Or.inl ⟨rfl, rfl, rfl⟩) hrun
  have hqueue : q.d.framesToSend = [] := by
    rcases hshape with ⟨hu, _, _⟩ | ⟨_, hq, _⟩
    · rw [hs] at hu
      cases hu
    · exact hq
  refine ⟨hqueue, ?_⟩
  intro request host port
  have hstart : q.sendRequest request host port =
      QCoapConnection.startToSendRequest
        { q with d := { q.d with
            framesToSend := q.d.framesToSend ++ [CoapFrame.mk request host port] } } := by
    unfold QCoapConnection.sendRequest
    simp [hs]
  rw [hstart,
    startToSendRequest_cons _ (CoapFrame.mk request host port) [] (by simp [hqueue])]
  have hd : ({ q.d with framesToSend := [] } : QCoapConnectionPrivate Cfg) = q.d := by
    rw [← hqueue]
  simp only [hd]

/-- C18 at the state reached by a send and a bound notification. -/
theorem C18_bound_implies_drained_witness :
    (QCoapConnection.new SecurityMode.NoSec : QCoapConnection Nat).run
        [Op.send [65] "h1" 5683, Op.bound] =
      Outcome.returned
        ((QCoapConnection.new SecurityMode.NoSec : QCoapConnection Nat).run
          [Op.send [65] "h1" 5683, Op.bound]).conn ∧
    ((QCoapConnection.new SecurityMode.NoSec : QCoapConnection Nat).run
        [Op.send [65] "h1" 5683, Op.bound]).conn.state = ConnectionState.Bound ∧
    ((QCoapConnection.new SecurityMode.NoSec : QCoapConnection Nat).run
        [Op.send [65] "h1" 5683, Op.bound]).conn.d.framesToSend = [] :=
  ⟨rfl, rfl, (C18_bound_implies_drained SecurityMode.NoSec
    [Op.send [65] "h1" 5683, Op.bound]
    ((QCoapConnection.new SecurityMode.NoSec : QCoapConnection Nat).run
      [Op.send [65] "h1" 5683, Op.bound]).conn rfl rfl).1⟩

/-- C19: the configuration slot and the send path are independent.
`setSecurityConfiguration` changes neither the connection state nor the outbound queue nor
the connected receivers, and its only outgoing call is the change signal or the warning,
never `bind` or `writeData`; a send and a bound notification, also one that stops at a
failed assertion, leave the value returned by `securityConfiguration()` unchanged. -/
theorem C19_configuration_independent_of_send_path {Cfg : Type} (q : QCoapConnection Cfg) :
    (∀ c : Cfg,
      (q.setSecurityConfiguration c).state = q.state ∧
      (q.setSecurityConfiguration c).d.framesToSend = q.d.framesToSend ∧
      (q.setSecurityConfiguration c).boundSlots = q.boundSlots ∧
      bindCalls (q.setSecurityConfiguration c).calls = bindCalls q.calls ∧
      transmitted (q.setSecurityConfiguration c).calls = transmitted q.calls ∧
      ∃ o, (q.setSecurityConfiguration c).calls = q.calls ++ [o] ∧
        (o.call = Call.securityConfigurationChanged ∨ o.call = Call.qCWarning)) ∧
    (∀ (request : List (Fin 256)) (host : String) (port : Fin 65536),
      (q.sendRequest request host port).conn.securityConfiguration =
        q.securityConfiguration) ∧
    q.emitBound.conn.securityConfiguration = q.securityConfiguration := by
  refine ⟨?_, ?_, ?_⟩
  · intro c
    obtain ⟨_, hst, hqueue, hslots, htx, hbind⟩ := kept_setSecurityConfiguration q c
    refine ⟨hst, hqueue, hslots, hbind, htx, ?_⟩
    unfold QCoapConnection.setSecurityConfiguration
    split
    · exact ⟨_, rfl, Or.inl rfl⟩
    · exact ⟨_, rfl, Or.inr rfl⟩
  · intro request host port
    exact (kept_sendRequest q request host port).2
  · exact (kept_runSlots q.boundSlots q).2
